import Mathlib

/-!
Verification of the REVS-index scraping core against its design document.

The Python sources are shallowly embedded: pure helpers become Lean
functions over List Char / String / Int / Rat; code that can raise an
exception returns Except Unit or Option; the ambient DOM, the live driver
and the regular-expression library are passed in as explicit oracle
functions, since they are external to the repository.  Python-specific
semantics (truthiness of optional strings, the int() truncation, the
re.match dollar anchor, TypeError on comparing None with int) are modelled
explicitly where the embedded code depends on them.
-/

namespace REVS

/-! ## Python primitives -/

/-- Truthiness of a Python Optional[str]: None and the empty string are falsy. -/
def pyStrTruthy : Option String → Bool
  | none => false
  | some s => !(s == "")

/-- Truthiness of a Python Optional[int]: None and 0 are falsy. -/
def pyIntTruthy : Option Int → Bool
  | none => false
  | some z => z != 0

/-- Interpret a nonempty list of decimal digit characters as a natural number. -/
def digitsVal : List Char → Nat
  | [] => 0
  | c :: cs => (c.toNat - '0'.toNat) * 10 ^ cs.length + digitsVal cs

/-- Python int(s) on a string: an optional sign followed by one or more
decimal digits; anything else raises ValueError (None here). -/
def pyInt (s : String) : Option Int :=
  match s.data with
  | [] => none
  | '-' :: cs =>
      if cs ≠ [] ∧ cs.all Char.isDigit then some (-(digitsVal cs : Int)) else none
  | cs =>
      if cs.all Char.isDigit then some (digitsVal cs : Int) else none

/-- Python float(s) restricted to plain decimal literals: an optional sign,
then digits with at most one decimal point and at least one digit in total.
Exponent forms do not occur in the data this code parses.  Any other
character raises ValueError (None here). -/
def pyFloatCore (cs : List Char) : Option ℚ :=
  let intPart := cs.takeWhile Char.isDigit
  let rest := cs.dropWhile Char.isDigit
  match rest with
  | [] => if intPart = [] then none else some (digitsVal intPart : ℚ)
  | '.' :: frac =>
      if frac.all Char.isDigit ∧ (intPart ≠ [] ∨ frac ≠ []) then
        some ((digitsVal intPart : ℚ) + (digitsVal frac : ℚ) / (10 ^ frac.length : ℚ))
      else none
  | _ => none

/-- Python float(s) with an optional leading sign. -/
def pyFloat (s : String) : Option ℚ :=
  match s.data with
  | '-' :: cs => (pyFloatCore cs).map Neg.neg
  | cs => pyFloatCore cs

/-- Python int(x) on a float value: truncation toward zero. -/
def pyTrunc (q : ℚ) : Int :=
  if 0 ≤ q then ⌊q⌋ else -⌊-q⌋

/-- Python s.replace(",", ""): drop every comma. -/
def stripCommas (s : String) : String :=
  ⟨s.data.filter (· ≠ ',')⟩

/-- Python "k" in s.lower(). -/
def containsK (s : String) : Bool :=
  s.data.any (fun c => c.toLower = 'k')

/-! ## BaseExtractor._apply_transform (src/extractors/base_extractor.py) -/

/-- Result type of the untyped Python transform: an int on the three numeric
transforms, the input string untouched otherwise. -/
inductive TransValue where
  | int (z : Int)
  | str (s : String)
deriving DecidableEq

/-- BaseExtractor._apply_transform.  A None result models a raised
ValueError from int()/float(). -/
def apply_transform (value : String) (transform : String) : Option TransValue :=
  if transform = "multiply_1000" then
    (pyFloat value).map (fun q => .int (pyTrunc (q * 1000)))
  else if transform = "handle_k_miles" then
    if containsK value then
      (pyFloat (stripCommas value)).map (fun q => .int (pyTrunc (q * 1000)))
    else
      (pyInt (stripCommas value)).map .int
  else if transform = "remove_commas" then
    (pyInt (stripCommas value)).map .int
  else
    some (.str value)

/-! ## VIN validation (src/extractors/field_extractors/vin_extractor.py) -/

/-- Membership in the regex character class [A-HJ-NPR-Z0-9]. -/
def isVinChar (c : Char) : Bool :=
  ('A' ≤ c ∧ c ≤ 'H') ∨ ('J' ≤ c ∧ c ≤ 'N') ∨ c = 'P' ∨ ('R' ≤ c ∧ c ≤ 'Z') ∨
    ('0' ≤ c ∧ c ≤ '9')

/-- Python re dollar anchor (no MULTILINE): succeeds at the end of the
string, or just before a newline that is the last character. -/
def dollarAnchor (cs : List Char) : Bool :=
  cs == [] || cs == ['\n']

/-- Matcher for the anchored pattern "^[A-HJ-NPR-Z0-9]{n}$" run by
re.match: consume exactly n class characters from the start, then apply
the Python dollar anchor to whatever remains. -/
def vinMatch : Nat → List Char → Bool
  | 0, rest => dollarAnchor rest
  | _ + 1, [] => false
  | n + 1, c :: rest => isVinChar c && vinMatch n rest

/-- VINExtractor._validate_vin: bool(re.match("^[A-HJ-NPR-Z0-9]{17}$", vin)). -/
def validate_vin (vin : String) : Bool :=
  vinMatch 17 vin.data

/-! ## Extraction rules and the extractor loops

The parsed page (BeautifulSoup), the live driver and re.search are
external to the repository; they enter the embedding as oracles: a Soup
maps a CSS selector to the stripped texts of the matched elements, a
Driver answers the two lookups the extractors perform, and a matcher
function stands for re.search(pattern, text, re.I).group(1). -/

/-- A rule dictionary as the extractors read it: its "type" tag, the keys
"selector", "regex", "patterns", "transform" (absent keys are none / empty). -/
structure Rule where
  type : String
  selector : String
  regex : Option String
  patterns : List String
  transform : Option String

/-- Oracle for the parsed page: selector to element texts. -/
structure Soup where
  select : String → List String

/-- Oracle for the live selenium driver as the extractors use it. -/
structure Driver where
  findByCss : String → List String
  findById : String → Option String

/-- VINExtractor._extract_from_selector: first element whose text the
rule's regex (when the rule has one) matches; group(1) is returned. -/
def vin_extract_from_selector (research : String → String → Option String)
    (soup : Soup) (rule : Rule) : Option String :=
  (soup.select rule.selector).findSome? fun text =>
    match rule.regex with
    | some rg => research rg text
    | none => none

/-- VINExtractor._extract_from_comments: scan the rule's selector's
elements, trying each pattern in order on each element text. -/
def vin_extract_from_comments (research : String → String → Option String)
    (driver : Driver) (rule : Rule) : Option String :=
  (driver.findByCss rule.selector).findSome? fun text =>
    rule.patterns.findSome? fun p => research p text

/-- One iteration of VINExtractor.extract's loop body before the gate:
the candidate the rule produces, dispatched on the rule type (the
comment_search arm runs only when a driver was passed). -/
def vin_rule_candidate (research : String → String → Option String)
    (soup : Soup) (driver : Option Driver) (rule : Rule) : Option String :=
  if rule.type = "selector" then
    vin_extract_from_selector research soup rule
  else if rule.type = "comment_search" then
    match driver with
    | some d => vin_extract_from_comments research d rule
    | none => none
  else none

/-- The value a rule contributes in VINExtractor.extract: its candidate,
kept only when truthy and valid ("if vin and self._validate_vin(vin)"). -/
def vin_rule_success (research : String → String → Option String)
    (soup : Soup) (driver : Option Driver) (rule : Rule) : Option String :=
  match vin_rule_candidate research soup driver rule with
  | some v => if v ≠ "" ∧ validate_vin v then some v else none
  | none => none

/-- VINExtractor.extract: walk the rules in declaration order, returning
the first candidate that is truthy and passes _validate_vin. -/
def vin_extract (research : String → String → Option String)
    (soup : Soup) (driver : Option Driver) : List Rule → Option String
  | [] => none
  | rule :: rest =>
    match vin_rule_candidate research soup driver rule with
    | some v =>
        if v ≠ "" ∧ validate_vin v then some v
        else vin_extract research soup driver rest
    | none => vin_extract research soup driver rest

/-- MileageExtractor._extract_from_details inner loop: first pattern that
matches one detail line, detail-major order. -/
def mlg_detail_match (research : String → String → Option String)
    (rule : Rule) (detail : String) : Option String :=
  rule.patterns.findSome? fun p => research p detail

/-- MileageExtractor._extract_from_details: on the first matching detail
line, apply the rule's transform when it has one, else int() after
stripping commas; a parse failure raises (Except.error). -/
def mlg_from_details (research : String → String → Option String)
    (rule : Rule) : List String → Except Unit (Option TransValue)
  | [] => .ok none
  | d :: ds =>
    match mlg_detail_match research rule d with
    | some value =>
        match rule.transform with
        | some t =>
            match apply_transform value t with
            | some v => .ok (some v)
            | none => .error ()
        | none =>
            match pyInt (stripCommas value) with
            | some z => .ok (some (.int z))
            | none => .error ()
    | none => mlg_from_details research rule ds

/-- MileageExtractor._extract_from_title: first matching pattern on the
title; transform when given, else int(float(value) * 1000). -/
def mlg_from_title (research : String → String → Option String)
    (rule : Rule) (title : String) : Except Unit (Option TransValue) :=
  match rule.patterns.findSome? (fun p => research p title) with
  | some value =>
      match rule.transform with
      | some t =>
          match apply_transform value t with
          | some v => .ok (some v)
          | none => .error ()
      | none =>
          match pyFloat value with
          | some q => .ok (some (.int (pyTrunc (q * 1000))))
          | none => .error ()
  | none => .ok none

/-- MileageExtractor._extract_from_comments: the whole body sits in a
try/except returning None, so every failure collapses to ok none. -/
def mlg_from_comments (research : String → String → Option String)
    (driver : Driver) (rule : Rule) : Option TransValue :=
  match driver.findById "comments" with
  | none => none
  | some text =>
    match rule.patterns.findSome? (fun p => research p text) with
    | some value =>
        match pyInt (stripCommas value) with
        | some z => some (.int z)
        | none => none
    | none => none

/-- One iteration of MileageExtractor.extract's loop body: the value the
rule produces, dispatched on the rule type. -/
def mlg_rule_eval (research : String → String → Option String)
    (details : List String) (title : String) (driver : Option Driver)
    (rule : Rule) : Except Unit (Option TransValue) :=
  if rule.type = "listing_detail" then
    mlg_from_details research rule details
  else if rule.type = "title" then
    mlg_from_title research rule title
  else if rule.type = "comment_search" then
    match driver with
    | some d => .ok (mlg_from_comments research d rule)
    | none => .ok none
  else .ok none

/-- MileageExtractor.extract: walk the rules in declaration order; the
first non-None value is returned ("if mileage is not None: return"). -/
def mileage_extract (research : String → String → Option String)
    (details : List String) (title : String) (driver : Option Driver) :
    List Rule → Except Unit (Option TransValue)
  | [] => .ok none
  | rule :: rest =>
    match mlg_rule_eval research details title driver rule with
    | .error e => .error e
    | .ok (some v) => .ok (some v)
    | .ok none => mileage_extract research details title driver rest

/-! ## BringATrailerSite._load_all_listings (src/sites/bringatrailer/site.py)

One loop iteration observes one outcome of the reveal-more action: the
script result carries exactly one of the keys done / error / success (per
the site-configuration contract), a success is followed by the 15-poll
wait whose outcome is abstracted as a growth flag, and any raised
exception lands in the except arm. -/

/-- Outcome of one reveal-more iteration. -/
inductive Outcome where
  | done
  | error
  | success (growth : Bool)
  | exn
deriving DecidableEq

/-- The loop counters: clicks so far and consecutive failures. -/
structure LoopState where
  clicks : Nat
  failures : Nat
deriving DecidableEq

/-- One iteration body of _load_all_listings given the iteration's
outcome: none means the loop breaks, some s' continues with counters s'.
done breaks; error and an exception increment the failure counter and
break at 2; success increments the click counter, then observed growth
resets the failure counter while absence of growth counts as a failure
with the same threshold. -/
def loadStep (s : LoopState) : Outcome → Option LoopState
  | .done => none
  | .error =>
      if 2 ≤ s.failures + 1 then none else some ⟨s.clicks, s.failures + 1⟩
  | .success true => some ⟨s.clicks + 1, 0⟩
  | .success false =>
      if 2 ≤ s.failures + 1 then none else some ⟨s.clicks + 1, s.failures + 1⟩
  | .exn =>
      if 2 ≤ s.failures + 1 then none else some ⟨s.clicks, s.failures + 1⟩

/-- The while loop of _load_all_listings, fuel-indexed: outs i is the
outcome of iteration i; the guard is clicks < max_clicks; some s is the
counter state at exit, none means the fuel ran out before the loop exited. -/
def loadRun (maxClicks : Nat) (outs : Nat → Outcome) :
    Nat → LoopState → Nat → Option LoopState
  | _, _, 0 => none
  | i, s, fuel + 1 =>
    if s.clicks < maxClicks then
      match loadStep s (outs i) with
      | none => some s
      | some s' => loadRun maxClicks outs (i + 1) s' fuel
    else some s

/-- Termination measure for the loop: every continuing iteration strictly
decreases it. -/
def loopMeasure (maxClicks : Nat) (s : LoopState) : Nat :=
  3 * (maxClicks - s.clicks) + (2 - s.failures)

/-! ## BringATrailerSite._extract_variant (src/sites/bringatrailer/site.py) -/

/-- Python str.strip() on the ASCII whitespace the titles contain. -/
def listStrip (cs : List Char) : List Char :=
  ((cs.dropWhile Char.isWhitespace).reverse.dropWhile Char.isWhitespace).reverse

/-- Python str.find: index of the first occurrence of the needle, None
standing for the -1 miss. -/
def listFind (needle : List Char) : List Char → Option Nat
  | [] => if needle.isPrefixOf ([] : List Char) then some 0 else none
  | c :: rest =>
      if needle.isPrefixOf (c :: rest) then some 0
      else (listFind needle rest).map (· + 1)

/-- Does the case-insensitive text "-speed" start here. -/
def dashSpeedHere (cs : List Char) : Bool :=
  ['-', 's', 'p', 'e', 'e', 'd'].isPrefixOf (cs.map Char.toLower)

/-- After the first digit of a candidate match of the regex
"\d+-Speed": consume further digits, then require "-Speed". -/
def speedRest : List Char → Bool
  | [] => false
  | c :: rest => if c.isDigit then speedRest rest else dashSpeedHere (c :: rest)

/-- Does a match of the regex "\d+-Speed" (re.I) begin exactly here. -/
def speedAt : List Char → Bool
  | [] => false
  | c :: rest => c.isDigit && speedRest rest

/-- re.search("\d+-Speed", s, re.I).start(): the leftmost position
where a digit run followed by "-Speed" begins. -/
def findSpeed : List Char → Option Nat
  | [] => none
  | c :: rest =>
      if speedAt (c :: rest) then some 0
      else (findSpeed rest).map (· + 1)

/-- Lines 354-368 of _extract_variant: find the make case-insensitively
in the title, strip the remainder, find the short model name
case-insensitively in it, and strip what follows; none when the make or
the model is absent. -/
def variantAfterModel (title make modelShort : String) : Option (List Char) :=
  match listFind (make.data.map Char.toUpper) (title.data.map Char.toUpper) with
  | none => none
  | some makeIdx =>
    let afterMake := listStrip (title.data.drop (makeIdx + make.data.length))
    match listFind (modelShort.data.map Char.toUpper) (afterMake.map Char.toUpper) with
    | none => none
    | some modelIdx => some (listStrip (afterMake.drop (modelIdx + modelShort.data.length)))

/-- Lines 373-378 of _extract_variant: truncate immediately before a
"N-Speed" match when there is one, then strip. -/
def variantCandidate (afterModel : List Char) : List Char :=
  match findSpeed afterModel with
  | some e => listStrip (afterModel.take e)
  | none => listStrip afterModel

/-- The title words that force the "Standard" fallback. -/
def commonWords : List String :=
  ["for", "with", "in", "at", "by", "from", "on", "and", "the"]

/-- First word of the (already stripped, nonempty) variant, lowered:
variant.split()[0].lower(). -/
def firstWordLower (cs : List Char) : List Char :=
  (cs.takeWhile (fun c => !c.isWhitespace)).map Char.toLower

/-- BringATrailerSite._extract_variant.  The try/except cannot fire here:
with the arguments typed as strings no line of the body raises. -/
def extract_variant (title make modelShort : String) : String :=
  match variantAfterModel title make modelShort with
  | none => "Standard"
  | some afterModel =>
    if afterModel = [] then "Standard"
    else
      let variant := variantCandidate afterModel
      if variant = [] then "Standard"
      else if commonWords.any (fun w => w.data = firstWordLower variant) then "Standard"
      else ⟨variant⟩

/-! ## Listing and its serialization (src/core/models/listing.py) -/

/-- The JSON values Listing.to_dict emits. -/
inductive Json where
  | str (s : String)
  | int (z : Int)
  | bool (b : Bool)
  | null
  | arr (xs : List String)
deriving DecidableEq

/-- The Listing dataclass. -/
structure Listing where
  url : String
  source : String
  title : String
  lot_number : Option String
  seller : Option String
  seller_type : Option String
  result : Option String
  high_bidder : Option String
  price : Option Int
  sale_date : Option String
  number_of_bids : Option Int
  vin : Option String
  year : Option Int
  make : Option String
  model : Option String
  variant : Option String
  convertible : Bool
  engine : Option String
  transmission : Option String
  exterior_color : Option String
  interior_color : Option String
  mileage : Option Int
  location : Option String
  country : Option String
  listing_details : List String
  excerpt : List String
deriving DecidableEq

/-- Python "x or 'N/A'" on an optional string: None and "" give the sentinel. -/
def orNA : Option String → String
  | none => "N/A"
  | some s => if s = "" then "N/A" else s

/-- An optional int serializes as itself or null. -/
def jsonOptInt : Option Int → Json
  | none => .null
  | some z => .int z

/-- Listing.to_dict, keys in source order. -/
def to_dict (l : Listing) : List (String × Json) :=
  [("url", .str l.url),
   ("source", .str l.source),
   ("lot_number", .str (orNA l.lot_number)),
   ("seller", .str (orNA l.seller)),
   ("seller_type", .str (orNA l.seller_type)),
   ("result", .str (orNA l.result)),
   ("high_bidder", .str (orNA l.high_bidder)),
   ("price", jsonOptInt l.price),
   ("sale_date", .str (orNA l.sale_date)),
   ("number_of_bids", jsonOptInt l.number_of_bids),
   ("title", .str (if l.title = "" then "N/A" else l.title)),
   ("vin", .str (orNA l.vin)),
   ("year", jsonOptInt l.year),
   ("make", .str (orNA l.make)),
   ("model", .str (orNA l.model)),
   ("variant", .str (orNA l.variant)),
   ("convertible", .bool l.convertible),
   ("engine", .str (orNA l.engine)),
   ("transmission", .str (orNA l.transmission)),
   ("exterior_color", .str (orNA l.exterior_color)),
   ("interior_color", .str (orNA l.interior_color)),
   ("mileage", jsonOptInt l.mileage),
   ("location", .str (orNA l.location)),
   ("listing_details", .arr l.listing_details),
   ("excerpt", .arr l.excerpt)]

/-- data.get(key, default) for a required string field; the dictionaries
this code reads come from to_dict, so the value at a present key has the
field's type. -/
def dGetStr (d : List (String × Json)) (k : String) (dflt : String) : String :=
  match d.lookup k with
  | some (.str s) => s
  | _ => dflt

/-- data.get(key) for an optional string field. -/
def dGetOptStr (d : List (String × Json)) (k : String) : Option String :=
  match d.lookup k with
  | some (.str s) => some s
  | _ => none

/-- data.get(key) for an optional int field. -/
def dGetOptInt (d : List (String × Json)) (k : String) : Option Int :=
  match d.lookup k with
  | some (.int z) => some z
  | _ => none

/-- data.get(key, False) for the convertible flag. -/
def dGetBool (d : List (String × Json)) (k : String) : Bool :=
  match d.lookup k with
  | some (.bool b) => b
  | _ => false

/-- data.get(key, []) for a list field. -/
def dGetArr (d : List (String × Json)) (k : String) : List String :=
  match d.lookup k with
  | some (.arr xs) => xs
  | _ => []

/-- Listing.from_dict. -/
def from_dict (d : List (String × Json)) : Listing :=
  ⟨dGetStr d "url" "", dGetStr d "source" "unknown", dGetStr d "title" "",
   dGetOptStr d "lot_number", dGetOptStr d "seller", dGetOptStr d "seller_type",
   dGetOptStr d "result", dGetOptStr d "high_bidder", dGetOptInt d "price",
   dGetOptStr d "sale_date", dGetOptInt d "number_of_bids", dGetOptStr d "vin",
   dGetOptInt d "year", dGetOptStr d "make", dGetOptStr d "model",
   dGetOptStr d "variant", dGetBool d "convertible", dGetOptStr d "engine",
   dGetOptStr d "transmission", dGetOptStr d "exterior_color",
   dGetOptStr d "interior_color", dGetOptInt d "mileage",
   dGetOptStr d "location", dGetOptStr d "country",
   dGetArr d "listing_details", dGetArr d "excerpt"⟩

/-! ## ScrapeConfig.should_skip_year (src/core/models/scrape_config.py) -/

/-- The ScrapeConfig fields _scrape_listings consults; the remaining run
parameters only drive the browser I/O around it. -/
structure ScrapeConfig where
  min_year : Option Int
  max_year : Option Int
  fields : Option (List String)

/-- Second statement of should_skip_year: "if self.max_year and year >
self.max_year"; comparing None with an int raises TypeError. -/
def skipMaxCheck (maxY : Option Int) (year : Option Int) : Except Unit Bool :=
  if pyIntTruthy maxY then
    match year with
    | none => .error ()
    | some y => .ok (maxY.getD 0 < y)
  else .ok false

/-- ScrapeConfig.should_skip_year: the two truthiness-guarded bound
checks in sequence; Except.error models the TypeError raised when a
bound is compared against a None year. -/
def should_skip_year (cfg : ScrapeConfig) (year : Option Int) : Except Unit Bool :=
  if pyIntTruthy cfg.min_year then
    match year with
    | none => .error ()
    | some y =>
        if y < cfg.min_year.getD 0 then .ok true
        else skipMaxCheck cfg.max_year year
  else skipMaxCheck cfg.max_year year

/-! ## ScrapingPipeline._scrape_listings (src/pipelines/scraping_pipeline.py)

The per-URL browser work (extract_listing) is I/O; it enters as an oracle
from URL to the extracted Listing or a raised exception.  The append
storage enters as the exists predicate over lot numbers, present only in
append mode. -/

/-- The append-mode duplicate guard: "self.append_storage and
listing.lot_number and listing.lot_number != 'N/A'" followed by the
storage exists lookup. -/
def dup_stop (app : Option (String → Bool)) (lot : Option String) : Bool :=
  match app with
  | none => false
  | some ex => pyStrTruthy lot && lot.getD "" ≠ "N/A" && ex (lot.getD "")

/-- The country filter guard: "if listing.country and listing.country != 'USA'". -/
def country_skip (country : Option String) : Bool :=
  pyStrTruthy country && country.getD "" ≠ "USA"

/-- Python "sub in s.lower()". -/
def containsLower (s : String) (sub : String) : Bool :=
  (listFind sub.data (s.data.map Char.toLower)).isSome

/-- The VIN-presence guard: "if not listing.vin or listing.vin == 'N/A'". -/
def vin_missing (vin : Option String) : Bool :=
  !pyStrTruthy vin || vin == some "N/A"

/-- ScrapingPipeline._filter_fields: round the listing through to_dict,
keep the requested keys, rebuild with from_dict. -/
def filter_fields (l : Listing) (fields : List String) : Listing :=
  from_dict (fields.filterMap fun f => ((to_dict l).lookup f).map fun v => (f, v))

/-- ScrapingPipeline._scrape_listings: walk the URLs; a raised extraction
is caught and the listing dropped; the append-mode duplicate guard
returns everything collected so far; the country, modified-title,
year-range (whose TypeError the generic handler also catches) and VIN
guards each skip the listing; survivors are appended, reduced to the
configured field subset when one is set. -/
def scrape_listings (extract : String → Except Unit Listing)
    (app : Option (String → Bool)) (cfg : ScrapeConfig) : List String → List Listing
  | [] => []
  | url :: rest =>
    match extract url with
    | .error _ => scrape_listings extract app cfg rest
    | .ok l =>
      if dup_stop app l.lot_number then []
      else if country_skip l.country then scrape_listings extract app cfg rest
      else if containsLower l.title "modified" then scrape_listings extract app cfg rest
      else
        match should_skip_year cfg l.year with
        | .error _ => scrape_listings extract app cfg rest
        | .ok true => scrape_listings extract app cfg rest
        | .ok false =>
          if vin_missing l.vin then scrape_listings extract app cfg rest
          else
            (match cfg.fields with
             | some fs => filter_fields l fs
             | none => l) :: scrape_listings extract app cfg rest

/-! ## DelayStrategy.get_delay (src/strategies/anti_detection/delays.py)

The random draws of one call enter as explicit values with their
documented ranges; n is the action counter after the increment at the
top of the call. -/

/-- The random draws one get_delay call makes: random.uniform(1.5, 3.0),
random.randint(10, 15), random.uniform(8, 15), random.random(), and
random.uniform(0.5, 1.0). -/
structure DelayDraws where
  base : ℚ
  modulus : Nat
  longPause : ℚ
  quickRoll : ℚ
  quick : ℚ

/-- The ranges the random module guarantees for the draws. -/
def drawsValid (d : DelayDraws) : Prop :=
  1.5 ≤ d.base ∧ d.base ≤ 3 ∧ 10 ≤ d.modulus ∧ d.modulus ≤ 15 ∧
    8 ≤ d.longPause ∧ d.longPause ≤ 15 ∧ 0 ≤ d.quickRoll ∧ d.quickRoll < 1 ∧
    0.5 ≤ d.quick ∧ d.quick ≤ 1

/-- DelayStrategy.get_delay: the periodic long pause returns directly;
otherwise the fatigue-scaled base delay, with 15% probability replaced by
the quick delay, is floored at min_delay. -/
def get_delay (minDelay : ℚ) (n : Nat) (d : DelayDraws) : ℚ :=
  if n % d.modulus = 0 then d.longPause
  else
    let fatigue : ℚ := 1 + (n : ℚ) * 0.005
    let delay : ℚ := if d.quickRoll < 0.15 then d.quick else d.base * fatigue
    max delay minDelay

/-! ## Theorems -/

/-- C5: the handle_k_miles transform on "45.5k" raises ValueError (the k
suffix is never stripped before float()), instead of the specified 45500;
on "12,345" it returns 12345 as specified. -/
theorem handle_k_miles_eval :
    apply_transform "45.5k" "handle_k_miles" = none ∧
      apply_transform "12,345" "handle_k_miles" = some (.int 12345) := by
  decide

theorem dollarAnchor_iff (cs : List Char) :
    dollarAnchor cs = true ↔ cs = [] ∨ cs = ['\n'] := by
  simp [dollarAnchor]

theorem vinMatch_iff (n : Nat) :
    ∀ cs : List Char, vinMatch n cs = true ↔
      n ≤ cs.length ∧ (cs.take n).all isVinChar = true ∧
        dollarAnchor (cs.drop n) = true := by
  induction n with
  | zero => intro cs; simp [vinMatch]
  | succ k ih =>
    intro cs
    cases cs with
    | nil => simp [vinMatch]
    | cons c rest =>
      simp only [vinMatch, Bool.and_eq_true, ih rest, List.take_succ_cons,
        List.drop_succ_cons, List.all_cons, List.length_cons,
        Nat.add_le_add_iff_right]
      tauto

/-- C2 (amended): VIN validation accepts a candidate iff it is exactly 17
characters from A-H, J-N, P, R-Z, 0-9, or such 17 characters followed by
one trailing newline: Python re.match with a dollar anchor also succeeds
just before a final newline, so one 18-character shape passes as well. -/
theorem vin_validation_characterized :
    ∀ s : String, validate_vin s = true ↔
      ((s.data.length = 17 ∧ s.data.all isVinChar = true) ∨
        ((s.data.take 17).all isVinChar = true ∧ s.data.drop 17 = ['\n'])) := by
  intro s
  rw [validate_vin, vinMatch_iff, dollarAnchor_iff]
  constructor
  · rintro ⟨hlen, hall, hd | hd⟩
    · left
      have hle : s.data.length ≤ 17 := by
        have := congrArg List.length hd
        simp only [List.length_drop, List.length_nil] at this
        omega
      have h17 : s.data.length = 17 := le_antisymm hle hlen
      rw [List.take_of_length_le hle] at hall
      exact ⟨h17, hall⟩
    · exact Or.inr ⟨hall, hd⟩
  · rintro (⟨hlen, hall⟩ | ⟨hall, hd⟩)
    · refine ⟨by omega, ?_, Or.inl ?_⟩
      · rw [List.take_of_length_le (by omega)]; exact hall
      · rw [List.drop_eq_nil_iff]; omega
    · have h18 : s.data.length = 18 := by
        have := congrArg List.length hd
        simp only [List.length_drop, List.length_cons, List.length_nil] at this
        omega
      exact ⟨by omega, hall, Or.inr hd⟩

/-- C2 counterexample: a string of 18 characters, 17 valid VIN characters
and a trailing newline, is accepted by _validate_vin although its length
is not 17. -/
theorem vin_validation_counterexample :
    validate_vin "AAAAAAAAAAAAAAAAA\n" = true ∧
      ("AAAAAAAAAAAAAAAAA\n" : String).length ≠ 17 := by
  decide

/-- C7: Listing.to_dict serializes every attribute of the data model
except country, which it omits entirely (while from_dict reads a country
key back); the key list of the emitted record is fixed and has no country
entry. -/
theorem to_dict_omits_country :
    ∀ l : Listing,
      (to_dict l).map Prod.fst =
        ["url", "source", "lot_number", "seller", "seller_type", "result",
         "high_bidder", "price", "sale_date", "number_of_bids", "title",
         "vin", "year", "make", "model", "variant", "convertible", "engine",
         "transmission", "exterior_color", "interior_color", "mileage",
         "location", "listing_details", "excerpt"] ∧
      (to_dict l).lookup "country" = none := by
  intro l
  exact ⟨rfl, rfl⟩

/-- C9: the country filter of the orchestrator skips a listing iff its
country is a present, nonempty value different from USA; a listing whose
country is absent (None) is never rejected by this guard. -/
theorem country_filter_unknown_passes :
    ∀ co : Option String,
      country_skip co = true ↔ ∃ c, co = some c ∧ c ≠ "" ∧ c ≠ "USA" := by
  intro co
  cases co with
  | none => simp [country_skip, pyStrTruthy]
  | some c => simp [country_skip, pyStrTruthy]

theorem skipMaxCheck_some (maxY : Option Int) (y : Int) :
    ∃ b : Bool, skipMaxCheck maxY (some y) = .ok b ∧
      (b = true ↔ ∃ M, maxY = some M ∧ M ≠ 0 ∧ M < y) := by
  cases maxY with
  | none => exact ⟨false, rfl, by simp⟩
  | some M =>
    by_cases hM : M = 0
    · exact ⟨false, by simp [skipMaxCheck, pyIntTruthy, hM], by simp [hM]⟩
    · refine ⟨decide (M < y), ?_, ?_⟩
      · simp [skipMaxCheck, pyIntTruthy, hM]
      · simp [hM, decide_eq_true_eq]

/-- C10: should_skip_year raises a TypeError whenever a (nonzero, as
Python truthiness requires) year bound is configured and the year is
None; on an integer year it never raises and returns true exactly when
the year lies strictly below the configured minimum or strictly above the
configured maximum, so the bounds themselves are inclusive. -/
theorem should_skip_year_spec :
    (∀ cfg : ScrapeConfig,
        pyIntTruthy cfg.min_year = true ∨ pyIntTruthy cfg.max_year = true →
        should_skip_year cfg none = .error ())
    ∧ (∀ (cfg : ScrapeConfig) (y : Int), ∃ b : Bool,
        should_skip_year cfg (some y) = .ok b ∧
          (b = true ↔ (∃ m, cfg.min_year = some m ∧ m ≠ 0 ∧ y < m) ∨
            (∃ M, cfg.max_year = some M ∧ M ≠ 0 ∧ M < y))) := by
  constructor
  · intro cfg h
    by_cases hm : pyIntTruthy cfg.min_year = true
    · simp [should_skip_year, hm]
    · have hM : pyIntTruthy cfg.max_year = true := h.resolve_left hm
      simp [should_skip_year, skipMaxCheck, hm, hM]
  · intro cfg y
    obtain ⟨bmax, hbmax, hiff⟩ := skipMaxCheck_some cfg.max_year y
    cases hmin : cfg.min_year with
    | none =>
      refine ⟨bmax, ?_, ?_⟩
      · simp [should_skip_year, pyIntTruthy, hmin, hbmax]
      · simp [hiff, hmin]
    | some m =>
      by_cases hm : m = 0
      · refine ⟨bmax, ?_, ?_⟩
        · simp [should_skip_year, pyIntTruthy, hmin, hm, hbmax]
        · simp [hiff, hmin, hm]
      · by_cases hy : y < m
        · refine ⟨true, ?_, ?_⟩
          · simp [should_skip_year, pyIntTruthy, hmin, hm, hy]
          · simp only [true_iff]
            exact Or.inl ⟨m, rfl, hm, hy⟩
        · refine ⟨bmax, ?_, ?_⟩
          · simp [should_skip_year, pyIntTruthy, hmin, hm, hy, hbmax]
          · simp [hiff, hmin, hy]

/-- Instance of should_skip_year_spec: a configured minimum year with an
absent year raises, and a year below the minimum is skipped. -/
theorem should_skip_year_witness :
    should_skip_year ⟨some 1990, none, none⟩ none = .error () ∧
      should_skip_year ⟨some 1990, some 2000, none⟩ (some 1980) = .ok true := by
  constructor
  · exact should_skip_year_spec.1 ⟨some 1990, none, none⟩ (Or.inl (by decide))
  · obtain ⟨b, hb, hiff⟩ := should_skip_year_spec.2 ⟨some 1990, some 2000, none⟩ 1980
    have hbt : b = true := hiff.mpr (Or.inl ⟨1990, rfl, by decide, by decide⟩)
    rw [hbt] at hb
    exact hb

/-- C8 (amended): the generic delay is floored at the configured minimum
on every branch except the periodic long pause, which returns its [8, 15]
draw unfloored; hence the floor guarantee holds on all branches whenever
the configured minimum is at most 8, and unconditionally on every call in
which the long-pause branch is not taken. -/
theorem get_delay_floor_amended :
    (∀ (minDelay : ℚ) (n : Nat) (d : DelayDraws), drawsValid d → minDelay ≤ 8 →
        minDelay ≤ get_delay minDelay n d)
    ∧ (∀ (minDelay : ℚ) (n : Nat) (d : DelayDraws), ¬n % d.modulus = 0 →
        minDelay ≤ get_delay minDelay n d) := by
  constructor
  · intro m n d hd hm
    simp only [get_delay]
    split
    · exact hm.trans hd.2.2.2.2.1
    · exact le_max_right _ _
  · intro m n d h
    simp only [get_delay, if_neg h]
    exact le_max_right _ _

/-- C8 counterexample: with minimum delay 20 and an in-range draw hitting
the long-pause branch (counter 10, modulus 10, long pause 8), get_delay
returns 8, strictly below the configured minimum. -/
theorem get_delay_floor_counterexample :
    drawsValid ⟨2, 10, 8, 0.5, 1⟩ ∧ get_delay 20 10 ⟨2, 10, 8, 0.5, 1⟩ < 20 := by
  constructor
  · unfold drawsValid
    norm_num
  · norm_num [get_delay]

theorem mileage_extract_cons (research : String → String → Option String)
    (details : List String) (title : String) (driver : Option Driver)
    (rule : Rule) (rest : List Rule) :
    mileage_extract research details title driver (rule :: rest) =
      match mlg_rule_eval research details title driver rule with
      | .error e => .error e
      | .ok (some v) => .ok (some v)
      | .ok none => mileage_extract research details title driver rest := rfl

theorem vin_extract_cons (research : String → String → Option String)
    (soup : Soup) (driver : Option Driver) (rule : Rule) (rest : List Rule) :
    vin_extract research soup driver (rule :: rest) =
      match vin_rule_success research soup driver rule with
      | some v => some v
      | none => vin_extract research soup driver rest := by
  simp only [vin_extract, vin_rule_success]
  cases h : vin_rule_candidate research soup driver rule with
  | none => rfl
  | some v => by_cases hv : v ≠ "" ∧ validate_vin v = true <;> simp [hv]

/-- C1: in both ordered-rule extractors, the first rule that succeeds on
the input (produces a non-None value for mileage; produces a truthy,
validated candidate for VIN) determines the extracted value, whatever the
rules after it would produce: the result does not depend on the rule tail
past the first success. -/
theorem first_rule_wins :
    (∀ (research : String → String → Option String) (details : List String)
        (title : String) (driver : Option Driver) (pre : List Rule)
        (ruleA : Rule) (post : List Rule) (v : TransValue),
        (∀ r ∈ pre, mlg_rule_eval research details title driver r = .ok none) →
        mlg_rule_eval research details title driver ruleA = .ok (some v) →
        mileage_extract research details title driver (pre ++ ruleA :: post) =
          .ok (some v))
    ∧ (∀ (research : String → String → Option String) (soup : Soup)
        (driver : Option Driver) (pre : List Rule) (ruleA : Rule)
        (post : List Rule) (v : String),
        (∀ r ∈ pre, vin_rule_success research soup driver r = none) →
        vin_rule_success research soup driver ruleA = some v →
        vin_extract research soup driver (pre ++ ruleA :: post) = some v) := by
  constructor
  · intro research details title driver pre ruleA post v
    induction pre with
    | nil =>
      intro _ hA
      rw [List.nil_append, mileage_extract_cons, hA]
    | cons r rs ih =>
      intro hpre hA
      rw [List.cons_append, mileage_extract_cons, hpre r (List.mem_cons_self r rs)]
      exact ih (fun x hx => hpre x (List.mem_cons_of_mem r hx)) hA
  · intro research soup driver pre ruleA post v
    induction pre with
    | nil =>
      intro _ hA
      rw [List.nil_append, vin_extract_cons, hA]
    | cons r rs ih =>
      intro hpre hA
      rw [List.cons_append, vin_extract_cons, hpre r (List.mem_cons_self r rs)]
      exact ih (fun x hx => hpre x (List.mem_cons_of_mem r hx)) hA

/-- Rule pair for the first_rule_wins instance: both match the one detail
line, with different captured values. -/
def wResearchC1 : String → String → Option String := fun p t =>
  if p = "PA" ∧ t = "D" then some "11"
  else if p = "PB" ∧ t = "D" then some "22" else none

def wRuleA : Rule := ⟨"listing_detail", "", none, ["PA"], none⟩

def wRuleB : Rule := ⟨"listing_detail", "", none, ["PB"], none⟩

/-- Instance of first_rule_wins: with two rules that would both match the
same input, the extracted value is the one of the first rule. -/
theorem first_rule_wins_witness :
    mileage_extract wResearchC1 ["D"] "" none [wRuleA, wRuleB] =
        .ok (some (.int 11)) ∧
      mlg_rule_eval wResearchC1 ["D"] "" none wRuleB = .ok (some (.int 22)) := by
  constructor
  · exact first_rule_wins.1 wResearchC1 ["D"] "" none [] wRuleA [wRuleB] (.int 11)
      (by simp) rfl
  · rfl

theorem loadStep_measure (M : Nat) (s s' : LoopState) (o : Outcome)
    (h : loadStep s o = some s') (hc : s.clicks < M) :
    loopMeasure M s' < loopMeasure M s := by
  cases o with
  | done => simp [loadStep] at h
  | error =>
    by_cases hf : 2 ≤ s.failures + 1
    · simp [loadStep, hf] at h
    · simp only [loadStep, if_neg hf] at h
      have h2 := Option.some.inj h
      subst h2
      simp only [loopMeasure]
      omega
  | success growth =>
    cases growth with
    | true =>
      simp only [loadStep] at h
      have h2 := Option.some.inj h
      subst h2
      simp only [loopMeasure]
      omega
    | false =>
      by_cases hf : 2 ≤ s.failures + 1
      · simp [loadStep, hf] at h
      · simp only [loadStep, if_neg hf] at h
        have h2 := Option.some.inj h
        subst h2
        simp only [loopMeasure]
        omega
  | exn =>
    by_cases hf : 2 ≤ s.failures + 1
    · simp [loadStep, hf] at h
    · simp only [loadStep, if_neg hf] at h
      have h2 := Option.some.inj h
      subst h2
      simp only [loopMeasure]
      omega

theorem loadRun_total (M : Nat) (outs : Nat → Outcome) :
    ∀ (fuel i : Nat) (s : LoopState), loopMeasure M s < fuel →
      (loadRun M outs i s fuel).isSome = true := by
  intro fuel
  induction fuel with
  | zero => intro i s h; exact absurd h (Nat.not_lt_zero _)
  | succ k ih =>
    intro i s h
    rw [loadRun]
    by_cases hc : s.clicks < M
    · rw [if_pos hc]
      cases hstep : loadStep s (outs i) with
      | none => rfl
      | some s2 =>
        simp only [hstep]
        refine ih (i + 1) s2 ?_
        have := loadStep_measure M s s2 _ hstep hc
        omega
    · rw [if_neg hc]
      rfl

/-- C3: for every click budget and every outcome sequence the loader loop
terminates (within 3 times the budget plus 3 iterations); the body breaks
as soon as the consecutive-failure counter would reach 2, on an error, an
exception or a growthless success alike, independently of the click
counter; the loop guard exits as soon as the click counter has reached
the budget, independently of the failure counter; and an iteration that
observes growth resets the failure counter to zero. -/
theorem listing_loader_halts :
    (∀ (M : Nat) (outs : Nat → Outcome),
        ∃ s, loadRun M outs 0 ⟨0, 0⟩ (3 * M + 3) = some s)
    ∧ (∀ s : LoopState, 1 ≤ s.failures →
        loadStep s .error = none ∧ loadStep s .exn = none ∧
          loadStep s (.success false) = none)
    ∧ (∀ (M : Nat) (outs : Nat → Outcome) (i : Nat) (s : LoopState) (fuel : Nat),
        M ≤ s.clicks → loadRun M outs i s (fuel + 1) = some s)
    ∧ (∀ s : LoopState, loadStep s (.success true) = some ⟨s.clicks + 1, 0⟩) := by
  refine ⟨?_, ?_, ?_, ?_⟩
  · intro M outs
    refine Option.isSome_iff_exists.mp (loadRun_total M outs (3 * M + 3) 0 ⟨0, 0⟩ ?_)
    simp only [loopMeasure]
    omega
  · intro s hf
    have h2 : 2 ≤ s.failures + 1 := by omega
    exact ⟨by simp [loadStep, h2], by simp [loadStep, h2], by simp [loadStep, h2]⟩
  · intro M outs i s fuel h
    rw [loadRun, if_neg (Nat.not_lt.mpr h)]
  · intro s
    rfl

/-- Instance of listing_loader_halts: a run of pure errors halts; a state
with one failure breaks on the next error at any click count; a state at
the click budget exits at once; growth resets the failure counter. -/
theorem listing_loader_halts_witness :
    (∃ s, loadRun 2 (fun _ => Outcome.error) 0 ⟨0, 0⟩ 9 = some s) ∧
      loadStep ⟨7, 1⟩ .error = none ∧
      loadRun 3 (fun _ => Outcome.done) 5 ⟨4, 1⟩ 1 = some ⟨4, 1⟩ ∧
      loadStep ⟨4, 1⟩ (.success true) = some ⟨5, 0⟩ :=
  ⟨listing_loader_halts.1 2 (fun _ => Outcome.error),
   (listing_loader_halts.2.1 ⟨7, 1⟩ (by decide)).1,
   listing_loader_halts.2.2.1 3 (fun _ => Outcome.done) 5 ⟨4, 1⟩ 0 (by decide),
   listing_loader_halts.2.2.2 ⟨4, 1⟩⟩

/-- C4: in append mode, as soon as one URL of the sequence yields a
listing whose lot number the duplicate guard recognizes, the whole run
returns exactly what the URL prefix before it produced: the URLs after
the duplicate are never consulted. -/
theorem append_dup_stops :
    ∀ (extract : String → Except Unit Listing) (app : Option (String → Bool))
      (cfg : ScrapeConfig) (urls₁ : List String) (u : String)
      (urls₂ : List String) (l : Listing),
      extract u = .ok l → dup_stop app l.lot_number = true →
      scrape_listings extract app cfg (urls₁ ++ u :: urls₂) =
        scrape_listings extract app cfg urls₁ := by
  intro extract app cfg urls₁ u urls₂ l
  induction urls₁ with
  | nil =>
    intro h2 h3
    rw [List.nil_append]
    simp only [scrape_listings, h2, h3, if_true]
  | cons u2 rest ih =>
    intro h2 h3
    have ih2 := ih h2 h3
    rw [List.cons_append]
    simp only [scrape_listings]
    cases hx : extract u2 with
    | error e => simp only [hx]; exact ih2
    | ok l2 => simp only [hx]; rw [ih2]

/-- Listings and storage for the append_dup_stops instance: prior storage
knows lot 1234; the three URLs yield lots 999, 1234, 555. -/
def wL999 : Listing :=
  ⟨"u1", "bat", "t1", some "999", none, none, none, none, none, none, none,
   some "V1", none, none, none, none, false, none, none, none, none, none,
   none, none, [], []⟩

def wL1234 : Listing :=
  ⟨"u2", "bat", "t2", some "1234", none, none, none, none, none, none, none,
   some "V2", none, none, none, none, false, none, none, none, none, none,
   none, none, [], []⟩

def wL555 : Listing :=
  ⟨"u3", "bat", "t3", some "555", none, none, none, none, none, none, none,
   some "V3", none, none, none, none, false, none, none, none, none, none,
   none, none, [], []⟩

def wExtractC4 : String → Except Unit Listing := fun url =>
  if url = "u1" then .ok wL999 else if url = "u2" then .ok wL1234 else .ok wL555

def wAppC4 : Option (String → Bool) := some (fun lot => lot = "1234")

def wCfgC4 : ScrapeConfig := ⟨none, none, none⟩

/-- Instance of append_dup_stops: lots 999, 1234, 555 against prior lot
1234 return only the 999 listing; the 555 one is never produced. -/
theorem append_dup_stops_witness :
    scrape_listings wExtractC4 wAppC4 wCfgC4 ["u1", "u2", "u3"] = [wL999] := by
  have h := append_dup_stops wExtractC4 wAppC4 wCfgC4 ["u1"] "u2" ["u3"] wL1234
    rfl (by decide)
  exact h.trans (by decide)

/-- C6: variant derivation returns the trimmed text after the model
match, truncated before any N-Speed token; it returns Standard when the
make or the model is absent from the title, when the remaining text is
empty (also after the truncation), or when the first remaining word is
one of the configured prepositions and conjunctions; on the three
documented titles it yields Competition Package, Standard and Standard. -/
theorem variant_derivation :
    (extract_variant "2003 BMW M3 Competition Package" "BMW" "M3" =
        "Competition Package" ∧
      extract_variant "2003 BMW M3" "BMW" "M3" = "Standard" ∧
      extract_variant "2003 BMW M3 6-Speed" "BMW" "M3" = "Standard")
    ∧ (∀ t m ms : String, variantAfterModel t m ms = none →
        extract_variant t m ms = "Standard")
    ∧ (∀ (t m ms : String) (am : List Char), variantAfterModel t m ms = some am →
        (am = [] ∨ variantCandidate am = [] ∨
          commonWords.any (fun w => w.data = firstWordLower (variantCandidate am)) =
            true) →
        extract_variant t m ms = "Standard")
    ∧ (∀ (t m ms : String) (am : List Char), variantAfterModel t m ms = some am →
        am ≠ [] → variantCandidate am ≠ [] →
        commonWords.any (fun w => w.data = firstWordLower (variantCandidate am)) =
          false →
        extract_variant t m ms = ⟨variantCandidate am⟩) := by
  refine ⟨⟨by decide, by decide, by decide⟩, ?_, ?_, ?_⟩
  · intro t m ms h
    simp only [extract_variant, h]
  · intro t m ms am h hstd
    simp only [extract_variant, h]
    rcases hstd with h1 | h1 | h1
    · rw [if_pos h1]
    · by_cases h0 : am = []
      · rw [if_pos h0]
      · rw [if_neg h0, if_pos h1]
    · by_cases h0 : am = []
      · rw [if_pos h0]
      · rw [if_neg h0]
        by_cases hv : variantCandidate am = []
        · rw [if_pos hv]
        · rw [if_neg hv, if_pos h1]
  · intro t m ms am h h1 h2 h3
    simp only [extract_variant, h]
    rw [if_neg h1, if_neg h2, if_neg (by simp [h3])]

end REVS
